import Mathlib

/-!
Verification of the discovery-and-change-detection core of la-agenda-alerts.

The Python source is shallowly embedded: text is `List Char` (one Python `str`
character per entry), bytes are `List Nat` (each < 256), machine words are `Nat`
reduced mod 2^32 where required.  Pure helper functions from
`src/deep_discovery.py`, `src/fetcher.py`, `src/parser.py` and
`src/pipeline.py` are translated directly; the network, the PDF/HTML text
extraction libraries and the HTML link regex are treated as an environment that
the discovery state machine and the fetch retry loop are parameterized over,
mirroring the dependency injection in the source (`DeepAgendaDiscovery`
receives a `ProductionFetcher`; `_parse_pdf`/`_parse_html` wrap library calls).
-/

namespace LAAgenda

/-! ### Python string primitives -/

/-- Characters treated as whitespace by Python `str.strip` / `re` `\s`
(ASCII range, which is all the embedded texts use). -/
def pyIsSpace (c : Char) : Bool :=
  c = ' ' || c = '\t' || c = '\n' || c = '\r' || c = Char.ofNat 11 || c = Char.ofNat 12

/-- Python `text.split('\n')`. -/
def splitLines : List Char → List (List Char)
  | [] => [[]]
  | c :: cs =>
    if c = '\n' then [] :: splitLines cs
    else
      match splitLines cs with
      | [] => [[c]]
      | l :: ls => (c :: l) :: ls

/-- Helper for `collapseWs`: the flag records whether we are inside a
whitespace run that has already emitted its single `' '`. -/
def collapseWsAux : Bool → List Char → List Char
  | _, [] => []
  | inRun, c :: cs =>
    if pyIsSpace c then
      if inRun then collapseWsAux true cs else ' ' :: collapseWsAux true cs
    else c :: collapseWsAux false cs

/-- Python `re.sub(r'\s+', ' ', line)`: collapse each maximal whitespace run to a
single space. -/
def collapseWs (l : List Char) : List Char := collapseWsAux false l

/-- Python `str.strip()`: drop leading and trailing whitespace. -/
def stripEnds (l : List Char) : List Char :=
  ((l.dropWhile pyIsSpace).reverse.dropWhile pyIsSpace).reverse

/-- Whether `needle` matches at the head of `hay`. -/
def listStarts : List Char → List Char → Bool
  | [], _ => true
  | _ :: _, [] => false
  | a :: as, b :: bs => a = b && listStarts as bs

/-- Python `needle in hay` (substring containment). -/
def containsSub : List Char → List Char → Bool
  | needle, [] => needle.isEmpty
  | needle, c :: cs => listStarts needle (c :: cs) || containsSub needle cs

/-- Number of positions of `hay` at which `needle` matches.  Python
`str.count` is non-overlapping; the only needle counted in the source is
`'http'`, which cannot overlap itself, so the two notions coincide there. -/
def countSubOcc (needle : List Char) : List Char → Nat
  | [] => 0
  | c :: cs => (if listStarts needle (c :: cs) then 1 else 0) + countSubOcc needle cs

/-- Python lowercasing, per character (ASCII; all embedded texts are ASCII). -/
def lowerStr (l : List Char) : List Char := l.map Char.toLower

/-! ### SHA-256, executable (`hashlib.sha256`)

Both fingerprint functions in the source take
`hashlib.sha256(x.encode()).hexdigest()[:16]`; we implement SHA-256 over byte
lists with `Nat` arithmetic mod 2^32. -/

/-- Reduce mod 2^32. -/
def w32 (n : Nat) : Nat := n % 4294967296

/-- 32-bit right rotation. -/
def rotr (n x : Nat) : Nat := w32 ((x >>> n) ||| (x <<< (32 - n)))

def bigSigma0 (x : Nat) : Nat := rotr 2 x ^^^ rotr 13 x ^^^ rotr 22 x
def bigSigma1 (x : Nat) : Nat := rotr 6 x ^^^ rotr 11 x ^^^ rotr 25 x
def smallSigma0 (x : Nat) : Nat := rotr 7 x ^^^ rotr 18 x ^^^ (x >>> 3)
def smallSigma1 (x : Nat) : Nat := rotr 17 x ^^^ rotr 19 x ^^^ (x >>> 10)

def chFun (x y z : Nat) : Nat := (x &&& y) ^^^ ((x ^^^ 4294967295) &&& z)
def majFun (x y z : Nat) : Nat := (x &&& y) ^^^ (x &&& z) ^^^ (y &&& z)

/-- The 64 SHA-256 round constants. -/
def sha256K : List Nat :=
  [1116352408, 1899447441, 3049323471, 3921009573,
   961987163, 1508970993, 2453635748, 2870763221,
   3624381080, 310598401, 607225278, 1426881987,
   1925078388, 2162078206, 2614888103, 3248222580,
   3835390401, 4022224774, 264347078, 604807628,
   770255983, 1249150122, 1555081692, 1996064986,
   2554220882, 2821834349, 2952996808, 3210313671,
   3336571891, 3584528711, 113926993, 338241895,
   666307205, 773529912, 1294757372, 1396182291,
   1695183700, 1986661051, 2177026350, 2456956037,
   2730485921, 2820302411, 3259730800, 3345764771,
   3516065817, 3600352804, 4094571909, 275423344,
   430227734, 506948616, 659060556, 883997877,
   958139571, 1322822218, 1537002063, 1747873779,
   1955562222, 2024104815, 2227730452, 2361852424,
   2428436474, 2756734187, 3204031479, 3329325298]

/-- The eight 32-bit words of a SHA-256 state. -/
structure Hash8 where
  a : Nat
  b : Nat
  c : Nat
  d : Nat
  e : Nat
  f : Nat
  g : Nat
  h : Nat
deriving DecidableEq, Repr

def sha256Init : Hash8 :=
  ⟨1779033703, 3144134277, 1013904242, 2773480762,
   1359893119, 2600822924, 528734635, 1541459225⟩

/-- One SHA-256 round; `kw` is the (unreduced) sum of the round constant and
the schedule word. -/
def sha256Round (st : Hash8) (kw : Nat) : Hash8 :=
  let t1 := w32 (st.h + bigSigma1 st.e + chFun st.e st.f st.g + kw)
  let t2 := w32 (bigSigma0 st.a + majFun st.a st.b st.c)
  ⟨w32 (t1 + t2), st.a, st.b, st.c, w32 (st.d + t1), st.e, st.f, st.g⟩

/-- Extend the message schedule; `acc` holds the words produced so far in
reverse order (so `acc.getD 1 0` is w[t-2], `acc.getD 6 0` is w[t-7], etc.). -/
def scheduleGo : Nat → List Nat → List Nat
  | 0, acc => acc.reverse
  | n + 1, acc =>
    let w := w32 (acc.getD 15 0 + smallSigma0 (acc.getD 14 0) +
                  acc.getD 6 0 + smallSigma1 (acc.getD 1 0))
    scheduleGo n (w :: acc)

/-- The 64 schedule words of a 16-word block. -/
def scheduleWords (block : List Nat) : List Nat := scheduleGo 48 block.reverse

/-- Compress one 16-word block into the running state. -/
def compressBlock (st : Hash8) (block : List Nat) : Hash8 :=
  let kws := List.zipWith (fun k w => k + w) sha256K (scheduleWords block)
  let r := kws.foldl sha256Round st
  ⟨w32 (st.a + r.a), w32 (st.b + r.b), w32 (st.c + r.c), w32 (st.d + r.d),
   w32 (st.e + r.e), w32 (st.f + r.f), w32 (st.g + r.g), w32 (st.h + r.h)⟩

/-- Big-endian 8-byte encoding of the bit length. -/
def be64 (n : Nat) : List Nat :=
  [n >>> 56 % 256, n >>> 48 % 256, n >>> 40 % 256, n >>> 32 % 256,
   n >>> 24 % 256, n >>> 16 % 256, n >>> 8 % 256, n % 256]

/-- SHA-256 padding: append `0x80`, zeros to 56 mod 64, then the bit length. -/
def sha256Pad (msg : List Nat) : List Nat :=
  let z := (120 - (msg.length + 1) % 64) % 64
  msg ++ 0x80 :: List.replicate z 0 ++ be64 (8 * msg.length)

/-- Group bytes into big-endian 32-bit words (input length a multiple of 4). -/
def bytesToWords : Nat → List Nat → List Nat
  | 0, _ => []
  | _, [] => []
  | fuel + 1, b0 :: b1 :: b2 :: b3 :: rest =>
    (b0 * 16777216 + b1 * 65536 + b2 * 256 + b3) :: bytesToWords fuel rest
  | _ + 1, _ => []

/-- Split into 64-byte blocks (input length a multiple of 64). -/
def chunks64 : Nat → List Nat → List (List Nat)
  | 0, _ => []
  | _, [] => []
  | fuel + 1, l => bytesToWords 16 (l.take 64) :: chunks64 fuel (l.drop 64)

/-- SHA-256 of a byte list. -/
def sha256Bytes (msg : List Nat) : Hash8 :=
  let padded := sha256Pad msg
  (chunks64 padded.length padded).foldl compressBlock sha256Init

def hexDigit (n : Nat) : Char :=
  "0123456789abcdef".data.getD n '0'

/-- Lowercase hex rendering of one 32-bit word, 8 characters. -/
def word32Hex (n : Nat) : List Char :=
  [hexDigit (n >>> 28 % 16), hexDigit (n >>> 24 % 16), hexDigit (n >>> 20 % 16),
   hexDigit (n >>> 16 % 16), hexDigit (n >>> 12 % 16), hexDigit (n >>> 8 % 16),
   hexDigit (n >>> 4 % 16), hexDigit (n % 16)]

/-- Python `hashlib.sha256(msg).hexdigest()` as a character list (64 hex chars). -/
def sha256HexChars (msg : List Nat) : List Char :=
  let st := sha256Bytes msg
  word32Hex st.a ++ word32Hex st.b ++ word32Hex st.c ++ word32Hex st.d ++
  word32Hex st.e ++ word32Hex st.f ++ word32Hex st.g ++ word32Hex st.h

/-- UTF-8 encoding of one character (`str.encode()`). -/
def utf8Char (c : Char) : List Nat :=
  let n := c.toNat
  if n < 128 then [n]
  else if n < 2048 then [192 + n / 64, 128 + n % 64]
  else if n < 65536 then [224 + n / 4096, 128 + n / 64 % 64, 128 + n % 64]
  else [240 + n / 262144, 128 + n / 4096 % 64, 128 + n / 64 % 64, 128 + n % 64]

/-- UTF-8 encoding of a text (`str.encode()`). -/
def utf8 (l : List Char) : List Nat := (l.map utf8Char).flatten

/-! ### Fingerprinting

`ParsedDoc._normalize_for_fingerprint` (src/deep_discovery.py:57-62, identical
copies in src/parser.py and src/production_system.py) and the two fingerprint
computations: the normalized one of `ParsedDoc.__post_init__` and the raw one
of `ProductionPipeline._fingerprint` (src/pipeline.py:153-156). -/

/-- One line of `_normalize_for_fingerprint`'s per-line cleanup:
`re.sub(r'\s+', ' ', line).strip()`. -/
def canonLine (l : List Char) : List Char := stripEnds (collapseWs l)

/-- The cleaned (but not yet filtered or sorted) lines of a text:
`[re.sub(r'\s+', ' ', line).strip() for line in text.lower().split('\n')]`. -/
def canonLines (text : List Char) : List (List Char) :=
  (splitLines (lowerStr text)).map canonLine

/-- Python string comparison: lexicographic by code point. -/
def leLex : List Char → List Char → Bool
  | [], _ => true
  | _ :: _, [] => false
  | a :: as, b :: bs =>
    if a.toNat = b.toNat then leLex as bs else decide (a.toNat < b.toNat)

/-- The order `sorted` uses, as a proposition. -/
def lexRel (a b : List Char) : Prop := leLex a b = true

instance : DecidableRel lexRel := fun a b => instDecidableEqBool (leLex a b) true

/-- Python `'\n'.join(lines)` (shared with the nav stripper defined below). -/
def joinLines : List (List Char) → List Char
  | [] => []
  | [l] => l
  | l :: ls => l ++ '\n' :: joinLines ls

/-- Source `ParsedDoc._normalize_for_fingerprint`: lowercase, collapse whitespace per
line, drop lines of length ≤ 3, sort, join with newlines. -/
def normalizeForFingerprint (text : List Char) : List Char :=
  joinLines (List.insertionSort lexRel ((canonLines text).filter (fun l => 3 < l.length)))

/-- The fingerprint computed by `ParsedDoc.__post_init__` when none is
supplied: `hashlib.sha256(normalized.encode()).hexdigest()[:16]`. -/
def parsedDocFingerprint (text : List Char) : List Char :=
  (sha256HexChars (utf8 (normalizeForFingerprint text))).take 16

/-- Source `ProductionPipeline._fingerprint` (src/pipeline.py:153-156): the raw
`hashlib.sha256(text.encode()).hexdigest()[:16]`, with no normalization.
This is the fingerprint the pipeline passes to the diff engine's `compare`. -/
def pipelineFingerprint (text : List Char) : List Char :=
  (sha256HexChars (utf8 text)).take 16

/-- Source `ParsedDoc.__post_init__` (src/deep_discovery.py:50-55, src/parser.py:24-30):
the fingerprint field is recomputed from the text only when the supplied
fingerprint is falsy (empty) and the text is truthy (non-empty); otherwise the
supplied value is kept. -/
def postInitFingerprint (text fingerprint : List Char) : List Char :=
  if fingerprint.isEmpty && !text.isEmpty then parsedDocFingerprint text
  else fingerprint

/-! ### Document classifier (`DocumentClassifier`, src/deep_discovery.py:205-322) -/

/-- Source `DocumentClassifier.NAV_TERMS`. -/
def navTerms : List (List Char) :=
  ["home".data, "about".data, "contact".data, "meetings".data, "agendas".data,
   "minutes".data, "calendar".data, "search".data, "menu".data,
   "navigation".data, "skip to content".data, "privacy policy".data,
   "terms of use".data, "sitemap".data, "login".data, "logout".data]

/-- Source `DocumentClassifier.AGENDA_PHRASES`. -/
def agendaPhrases : List (List Char) :=
  ["call to order".data, "roll call".data, "public comment".data,
   "adjournment".data, "closed session".data, "agenda item".data,
   "item no.".data, "item #".data, "action item".data,
   "consent calendar".data, "public hearing".data]

def calendarIndicators : List (List Char) :=
  ["meeting calendar".data, "schedule of meetings".data, "calendar year".data,
   "fy20".data, "fiscal year".data]

def minutesIndicators : List (List Char) :=
  ["meeting minutes".data, "approved minutes".data, "minutes of".data,
   "the meeting was called to order".data, "present:".data]

def noAgendaIndicators : List (List Char) :=
  ["no agenda".data, "agenda not yet".data, "agenda will be posted".data,
   "not available".data, "coming soon".data, "check back later".data,
   "agenda has not been posted".data]

def indexIndicators : List (List Char) :=
  ["upcoming meetings".data, "meeting list".data, "all meetings".data,
   "select a meeting".data, "filter by".data, "search meetings".data,
   "browse by".data, "category:".data, "tags:".data]

/-- Python regex `\w` (ASCII range). -/
def isWordChar (c : Char) : Bool := c.isAlphanum || c = '_'

/-- Whether `term` matches at the head of `hay` with a `\b` on its right.  (All nav
terms end in a letter, so the right boundary is "next char is not a word
char or end of string".) -/
def boundedAt (term hay : List Char) : Bool :=
  listStarts term hay &&
    (match hay.drop term.length with
     | [] => true
     | c :: _ => !isWordChar c)

/-- Scan of `re.search(r'\b' + term + r'\b', hay)`; the flag records whether
the previous character was a word character (all nav terms begin with a
letter, so the left `\b` means "previous char absent or not a word char"). -/
def searchWordAux (term : List Char) : Bool → List Char → Bool
  | _, [] => false
  | prevWord, c :: cs =>
    (!prevWord && boundedAt term (c :: cs)) || searchWordAux term (isWordChar c) cs

def searchWordBounded (term hay : List Char) : Bool := searchWordAux term false hay

/-- Source `DocumentClassifier.strip_nav_text`: drop stripped lines shorter than 4
characters, lines that are exactly a nav term, and lines where a nav term
occurs as a standalone word with little other content. -/
def stripNavText (text : List Char) : List Char :=
  joinLines ((splitLines text).filterMap (fun line =>
    let ls := stripEnds line
    if ls.length < 4 then none
    else
      let ll := lowerStr ls
      if ll ∈ navTerms then none
      else if navTerms.any (fun term =>
          searchWordBounded term ll && decide (ls.length < term.length + 10)) then none
      else some ls))

def isMarkerPunct (c : Char) : Bool := c = '.' || c = ')' || c = ']'

def isRomanChar (c : Char) : Bool :=
  c = 'I' || c = 'V' || c = 'X' || c = 'i' || c = 'v' || c = 'x'

/-- The character after the first `n` is one of `.`, `)`, `]`. -/
def punctAfter (n : Nat) (ls : List Char) : Bool :=
  match ls.drop n with
  | c :: _ => isMarkerPunct c
  | [] => false

/-- Python `re.match(r'^\d+[\.\)\]]', ls)`. -/
def numberedMatch (ls : List Char) : Bool :=
  !(ls.takeWhile Char.isDigit).isEmpty && punctAfter (ls.takeWhile Char.isDigit).length ls

/-- Python `re.match(r'^[A-Za-z][\.\)\]]', ls)`. -/
def letterMatch : List Char → Bool
  | a :: b :: _ => a.isAlpha && isMarkerPunct b
  | _ => false

/-- Python `re.match(r'^[IVXivx]+[\.\)\]]', ls)`. -/
def romanMatch (ls : List Char) : Bool :=
  !(ls.takeWhile isRomanChar).isEmpty && punctAfter (ls.takeWhile isRomanChar).length ls

/-- The marker a stripped line contributes in
`DocumentClassifier.count_item_markers`, if any. -/
def lineMarker (line : List Char) : Option (List Char) :=
  let ls := stripEnds line
  if numberedMatch ls then some (ls.takeWhile Char.isDigit)
  else if letterMatch ls then some [(ls.headD ' ').toUpper]
  else if romanMatch ls then some "ROMAN".data
  else none

/-- Source `DocumentClassifier.count_item_markers`: number of distinct line-start
markers. -/
def countItemMarkers (text : List Char) : Nat :=
  ((splitLines text).foldl (fun acc line =>
    match lineMarker line with
    | some m => if m ∈ acc then acc else m :: acc
    | none => acc) []).length

/-- Source `DocumentClassifier.classify` (src/deep_discovery.py:270-322). -/
def classify (text : List Char) : String :=
  let cleanedText := stripNavText text
  let cleanedLower := (lowerStr cleanedText).take 5000
  let hasAgendaPhrase := agendaPhrases.any (fun p => containsSub p cleanedLower)
  let itemMarkerCount := countItemMarkers cleanedText
  let hasGenericAgenda := containsSub "agenda".data cleanedLower && !hasAgendaPhrase
  let hasCalendar := calendarIndicators.any (fun p => containsSub p cleanedLower)
  let hasMinutes := minutesIndicators.any (fun p => containsSub p cleanedLower)
  let hasNoAgenda := noAgendaIndicators.any (fun p => containsSub p cleanedLower)
  let hasIndex := indexIndicators.any (fun p => containsSub p cleanedLower)
  if hasNoAgenda && !hasAgendaPhrase then "no-agenda-yet"
  else if hasAgendaPhrase then "agenda"
  else if 5 ≤ itemMarkerCount then "agenda"
  else if hasCalendar && !hasAgendaPhrase && decide (itemMarkerCount < 3) then "calendar"
  else if hasMinutes && !hasAgendaPhrase then "minutes"
  else if hasIndex || hasGenericAgenda ||
      (decide (cleanedText.length < 2000) && decide (5 < countSubOcc "http".data text)) then "index"
  else "unknown"

/-! ### Fetcher retry loop (`ProductionFetcher.fetch`)

The network is abstracted as a function from attempt index to what
`_fetch_once` does on that attempt: return content (possibly `None`), raise
`urllib.error.HTTPError` with a status code, or raise another exception.  The
jitter of `random.uniform(0, 1)` is a parameter.  Two embeddings: the
`src/fetcher.py` version (lines 50-127) and the `src/deep_discovery.py`
version (lines 91-144), which differ in the 403 special case and in the
final error fix-up after retry exhaustion. -/

/-- What a single `_fetch_once` call does. -/
inductive AttemptOutcome where
  | success (content : Option String) (code : Int) (ctype : String)
  | httpError (code : Int)
  | netExc (msg : String)
deriving DecidableEq, Repr

/-- The metadata fields of the fetch result relevant to the claims. -/
structure FetchMeta where
  statusCode : Option Int := none
  contentType : Option String := none
  cached : Bool := false
  errorMsg : Option String := none
  retries : Nat := 0
deriving DecidableEq, Repr

structure FetchResult where
  content : Option String
  meta : FetchMeta
  sleeps : List ℚ
  attemptsMade : Nat

/-- Source `ProductionFetcher._exponential_backoff`: `min(2 ** attempt, 60) +
random.uniform(0, 1)`. -/
def exponentialBackoff (attempt : Nat) (jit : ℚ) : ℚ :=
  min ((2 : ℚ) ^ attempt) 60 + jit

/-- The `for attempt in range(3)` loop of `ProductionFetcher.fetch` in
src/fetcher.py; `i` is the attempt index, `fuel` the remaining iterations
(`i + fuel = 3` at every call). -/
def fetchGoProd (att : Nat → AttemptOutcome) (jit : Nat → ℚ) :
    Nat → Nat → FetchMeta → FetchResult
  | _, 0, m =>
    ⟨none, { m with errorMsg :=
      if m.errorMsg.isNone then some "Max retries exceeded" else m.errorMsg }, [], 0⟩
  | i, fuel + 1, m =>
    match att i with
    | .success c code ctype =>
      match c with
      | some s =>
        ⟨some s, { m with retries := i, statusCode := some code, contentType := some ctype }, [], 1⟩
      | none =>
        ⟨(fetchGoProd att jit (i + 1) fuel
            { m with retries := i, statusCode := some code, contentType := some ctype }).content,
         (fetchGoProd att jit (i + 1) fuel
            { m with retries := i, statusCode := some code, contentType := some ctype }).meta,
         (fetchGoProd att jit (i + 1) fuel
            { m with retries := i, statusCode := some code, contentType := some ctype }).sleeps,
         (fetchGoProd att jit (i + 1) fuel
            { m with retries := i, statusCode := some code, contentType := some ctype }).attemptsMade + 1⟩
    | .httpError code =>
      if code = 404 ∨ code = 410 then
        ⟨none, { m with retries := i, statusCode := some code, errorMsg := some ("HTTP " ++ toString code ++ " - Page removed or changed") }, [], 1⟩
      else if code = 403 then
        ⟨none, { m with retries := i, statusCode := some code, errorMsg := some "HTTP 403 - Access blocked" }, [], 1⟩
      else if code = 429 ∨ 500 ≤ code then
        ⟨(fetchGoProd att jit (i + 1) fuel { m with retries := i, statusCode := some code }).content,
         (fetchGoProd att jit (i + 1) fuel { m with retries := i, statusCode := some code }).meta,
         exponentialBackoff i (jit i) ::
           (fetchGoProd att jit (i + 1) fuel { m with retries := i, statusCode := some code }).sleeps,
         (fetchGoProd att jit (i + 1) fuel { m with retries := i, statusCode := some code }).attemptsMade + 1⟩
      else
        ⟨none, { m with retries := i, statusCode := some code, errorMsg := some ("HTTP " ++ toString code) }, [], 1⟩
    | .netExc msg =>
      ⟨(fetchGoProd att jit (i + 1) fuel { m with retries := i, errorMsg := some msg }).content,
       (fetchGoProd att jit (i + 1) fuel { m with retries := i, errorMsg := some msg }).meta,
       exponentialBackoff i (jit i) ::
         (fetchGoProd att jit (i + 1) fuel { m with retries := i, errorMsg := some msg }).sleeps,
       (fetchGoProd att jit (i + 1) fuel { m with retries := i, errorMsg := some msg }).attemptsMade + 1⟩

/-- Source `ProductionFetcher.fetch` of src/fetcher.py: serve a fresh cache entry if
present, otherwise run the 3-attempt retry loop. -/
def prodFetch (cache : Option String) (att : Nat → AttemptOutcome)
    (jit : Nat → ℚ) : FetchResult :=
  match cache with
  | some c => ⟨some c, { cached := true }, [], 0⟩
  | none => fetchGoProd att jit 0 3 {}

/-- The retry loop of the `ProductionFetcher.fetch` copy in
src/deep_discovery.py (lines 115-144): no 403 special case (it falls into the
generic 4xx branch) and, crucially, no error fix-up after exhaustion. -/
def fetchGoDeep (att : Nat → AttemptOutcome) (jit : Nat → ℚ) :
    Nat → Nat → FetchMeta → FetchResult
  | _, 0, m => ⟨none, m, [], 0⟩
  | i, fuel + 1, m =>
    match att i with
    | .success c code ctype =>
      match c with
      | some s =>
        ⟨some s, { m with statusCode := some code, contentType := some ctype }, [], 1⟩
      | none =>
        ⟨(fetchGoDeep att jit (i + 1) fuel
            { m with statusCode := some code, contentType := some ctype }).content,
         (fetchGoDeep att jit (i + 1) fuel
            { m with statusCode := some code, contentType := some ctype }).meta,
         (fetchGoDeep att jit (i + 1) fuel
            { m with statusCode := some code, contentType := some ctype }).sleeps,
         (fetchGoDeep att jit (i + 1) fuel
            { m with statusCode := some code, contentType := some ctype }).attemptsMade + 1⟩
    | .httpError code =>
      if code = 404 ∨ code = 410 then
        ⟨none, { m with statusCode := some code, errorMsg := some ("HTTP " ++ toString code) }, [], 1⟩
      else if code = 429 ∨ 500 ≤ code then
        ⟨(fetchGoDeep att jit (i + 1) fuel { m with statusCode := some code }).content,
         (fetchGoDeep att jit (i + 1) fuel { m with statusCode := some code }).meta,
         exponentialBackoff i (jit i) ::
           (fetchGoDeep att jit (i + 1) fuel { m with statusCode := some code }).sleeps,
         (fetchGoDeep att jit (i + 1) fuel { m with statusCode := some code }).attemptsMade + 1⟩
      else
        ⟨none, { m with statusCode := some code, errorMsg := some ("HTTP " ++ toString code) }, [], 1⟩
    | .netExc msg =>
      ⟨(fetchGoDeep att jit (i + 1) fuel { m with errorMsg := some msg }).content,
       (fetchGoDeep att jit (i + 1) fuel { m with errorMsg := some msg }).meta,
       exponentialBackoff i (jit i) ::
         (fetchGoDeep att jit (i + 1) fuel { m with errorMsg := some msg }).sleeps,
       (fetchGoDeep att jit (i + 1) fuel { m with errorMsg := some msg }).attemptsMade + 1⟩

/-- The src/deep_discovery.py `ProductionFetcher.fetch`. -/
def deepFetch (cache : Option String) (att : Nat → AttemptOutcome)
    (jit : Nat → ℚ) : FetchResult :=
  match cache with
  | some c => ⟨some c, { cached := true }, [], 0⟩
  | none => fetchGoDeep att jit 0 3 {}

/-- HTTP codes the claim calls permanent: 404, 410, and any other 4xx
except 429 (all of which `fetch` fails on immediately). -/
def permanentCode (c : Int) : Prop :=
  c = 404 ∨ c = 410 ∨ (400 ≤ c ∧ c < 500 ∧ c ≠ 429)

/-- Attempt `j` fails transiently: HTTP 429, HTTP 5xx, or a network
exception. -/
def transientAt (att : Nat → AttemptOutcome) (j : Nat) : Prop :=
  (∃ c, att j = .httpError c ∧ (c = 429 ∨ 500 ≤ c)) ∨ (∃ msg, att j = .netExc msg)

/-! ### Discovery engine (`DeepAgendaDiscovery.discover_agenda_deep`,
src/deep_discovery.py:516-683)

The fetcher, the PDF/HTML text extraction and the link regex of
`extract_links_v2` are the injected environment: a `SitePage` per URL gives
the fetch outcome, the extracted-and-normalized document text, and the scored
link list.  Classification of that text uses the embedded classifier, as in
the source (`_parse_pdf`/`_parse_html` call `self.classifier.classify`).
The control flow — visited set, depth loop, link selection, status
assignment — is translated line by line; the run additionally returns the
list of URLs fetched, in order, for the fetch-count claims. -/

structure ScoredLink where
  url : String
  score : Int
deriving DecidableEq, Repr

/-- The environment's answer for one URL. -/
structure SitePage where
  contentOk : Bool
  statusCode : Option Int
  contentType : String
  text : List Char
  links : List ScoredLink
deriving Repr

/-- The claim-relevant fields of the result dict built by
`discover_agenda_deep`. -/
structure DiscoveryOutcome where
  depthReached : Nat
  status : String
  finalUrl : Option String
  errorMsg : Option String
deriving DecidableEq, Repr

/-- Python `current_url.lower().endswith('.pdf') or 'pdf' in metadata.get('content_type', '')`. -/
def isPdfNav (url : String) (ctype : String) : Bool :=
  List.isSuffixOf ".pdf".data (lowerStr url.data) || containsSub "pdf".data ctype.data

/-- The first link whose URL is unvisited and whose score exceeds −20
(src/deep_discovery.py:663-668). -/
def firstUnvisited (links : List ScoredLink) (visited : List String) : Option ScoredLink :=
  links.find? (fun l => !(visited.contains l.url) && decide (-20 < l.score))

/-- The `for depth in range(max_depth + 1)` loop of `discover_agenda_deep`;
`fuel` is the number of remaining iterations (`depth + fuel = maxDepth + 1`
at every call), and the second component of the result is the list of URLs
fetched from this point on.  When the loop exhausts without a `break` or
`return` — which happens exactly when the final iteration rejects a
non-agenda PDF — the initial status `'searching'` is returned unchanged. -/
def discoverGo (site : String → SitePage) (maxDepth : Nat) :
    Nat → Nat → List String → String → DiscoveryOutcome × List String
  | 0, depth, _, _ => (⟨depth - 1, "searching", none, none⟩, [])
  | fuel + 1, depth, visited, current =>
    if current ∈ visited then
      (⟨depth, "fail-loop", none, some ("Loop detected at " ++ current)⟩, [])
    else if (site current).contentOk = false ∨ (site current).statusCode ≠ some 200 then
      (⟨depth, "fail-fetch", none, some ("Failed to fetch at depth " ++ toString depth)⟩, [current])
    else if isPdfNav current (site current).contentType then
      if classify (site current).text = "agenda" then
        (⟨depth, "success-agenda", some current, none⟩, [current])
      else if classify (site current).text = "no-agenda-yet" then
        (⟨depth, "fail-no-agenda-yet", none, some "Meeting page states no agenda posted yet"⟩, [current])
      else
        ((discoverGo site maxDepth fuel (depth + 1) (current :: visited) current).1,
         current :: (discoverGo site maxDepth fuel (depth + 1) (current :: visited) current).2)
    else if classify (site current).text = "agenda" ∧ 1000 < (site current).text.length then
      (⟨depth, "success-agenda-html", some current, none⟩, [current])
    else if depth < maxDepth ∧ (site current).links ≠ [] then
      match firstUnvisited (site current).links (current :: visited) with
      | some l =>
        ((discoverGo site maxDepth fuel (depth + 1) (current :: visited) l.url).1,
         current :: (discoverGo site maxDepth fuel (depth + 1) (current :: visited) l.url).2)
      | none =>
        (⟨depth, "fail-no-links", none, some ("No unvisited positive-scoring links at depth " ++ toString depth)⟩, [current])
    else
      (⟨depth, "fail-max-depth", none, some ("Reached max depth (" ++ toString maxDepth ++ ") without finding agenda")⟩, [current])

/-- Source `DeepAgendaDiscovery.discover_agenda_deep`, returning the claim-relevant
result fields together with the ordered list of fetched URLs. -/
def discoverAgendaDeep (site : String → SitePage) (landing : String)
    (maxDepth : Nat := 3) : DiscoveryOutcome × List String :=
  discoverGo site maxDepth (maxDepth + 1) 0 [] landing

/-- The seven statuses the spec's closed enum lists. -/
def specStatuses : List String :=
  ["success-agenda", "success-agenda-html", "fail-loop", "fail-fetch",
   "fail-no-agenda-yet", "fail-no-links", "fail-max-depth"]

/-! ### Diff engine

`src/pipeline.py` instantiates `ProductionDiff(self.state_dir)` from
`src.diff` and calls `self.differ.compare(source_id, combined_text,
combined_fingerprint)`, but the `ProductionDiff` class itself is not present
in the repository snapshot (src/diff.py holds the unrelated item-level
`DiffWorker`).  The definitions below are therefore modelled from the spec,
§4.6. -/

/-- Modelled from the spec: the per-source `FingerprintRecord`
`{fingerprint, normalizedTextSample (bounded length), updatedAt}` persisted
by the missing `ProductionDiff`; the timestamp is irrelevant to the claims
and omitted. -/
structure FingerprintRecord where
  fingerprint : List Char
  textSample : List Char
deriving DecidableEq, Repr

/-- Modelled from the spec: the `ChangeSummary` record of §3. -/
structure ChangeSummary where
  changed : Bool
  fingerprintChanged : Bool
  addedLines : List (List Char)
  removedLines : List (List Char)
  percentChanged : ℚ
  noiseOnly : Bool
  oldFingerprint : List Char
  newFingerprint : List Char

/-- Result of one `compare` call: the summary, the updated fingerprint store,
and whether a line-level diff was computed on this call. -/
structure CompareOutput where
  summary : ChangeSummary
  store : List (String × FingerprintRecord)
  didLineDiff : Bool

def lookupRecord (store : List (String × FingerprintRecord)) (sid : String) :
    Option FingerprintRecord :=
  (store.find? (fun p => p.1 == sid)).map Prod.snd

def setRecord (store : List (String × FingerprintRecord)) (sid : String)
    (r : FingerprintRecord) : List (String × FingerprintRecord) :=
  match store with
  | [] => [(sid, r)]
  | p :: rest => if p.1 == sid then (sid, r) :: rest else p :: setRecord rest sid r

def allDigits (l : List Char) : Bool := !l.isEmpty && l.all Char.isDigit

/-- Modelled from the spec: a bare date (`M/D/Y` or ISO `Y-M-D`). -/
def isBareDate (l : List Char) : Bool :=
  (match (String.mk l).split (· = '/') with
   | [a, b, c] => allDigits a.data && allDigits b.data && allDigits c.data
   | _ => false) ||
  (match (String.mk l).split (· = '-') with
   | [a, b, c] => allDigits a.data && allDigits b.data && allDigits c.data
   | _ => false)

/-- Modelled from the spec: a bare clock time (`H:MM`, optional am/pm). -/
def isClockTime (l : List Char) : Bool :=
  match (String.mk l).split (· = ':') with
  | [h, m] =>
    let md := m.data
    let ds := md.takeWhile Char.isDigit
    let rest := lowerStr (stripEnds (md.drop ds.length))
    allDigits h.data && ds.length = 2 &&
      (rest.isEmpty || rest = "am".data || rest = "pm".data ||
       rest = "a.m.".data || rest = "p.m.".data)
  | _ => false

/-- Modelled from the spec: a `page X of Y` line. -/
def isPageXofY (l : List Char) : Bool :=
  match ((String.mk (lowerStr l)).split (· = ' ')).filter (fun s => !s.isEmpty) with
  | [p, x, o, y] => p == "page" && allDigits x.data && o == "of" && allDigits y.data
  | _ => false

/-- Modelled from the spec: diff lines matching known noise patterns
(timestamps, bare dates, bare clock times, `page X of Y`). -/
def isNoiseLine (l : List Char) : Bool :=
  let t := stripEnds l
  let low := lowerStr t
  isBareDate t || isClockTime t || isPageXofY t ||
  containsSub "printed on".data low || containsSub "printed at".data low ||
  containsSub "updated".data low || containsSub "generated".data low

/-- A diff line survives if it is not noise and is at least 3 characters
after trimming. -/
def keepDiffLine (l : List Char) : Bool :=
  !isNoiseLine l && decide (3 ≤ (stripEnds l).length)

/-- Modelled from the spec: the line-level diff — added lines are lines of the
new text absent from the old, and vice versa, noise-filtered and capped at
20 each. -/
def lineDiff (oldText newText : List Char) :
    List (List Char) × List (List Char) :=
  let oldLines := splitLines oldText
  let newLines := splitLines newText
  (((newLines.filter (fun l => l ∉ oldLines)).filter keepDiffLine).take 20,
   ((oldLines.filter (fun l => l ∉ newLines)).filter keepDiffLine).take 20)

/-- Modelled from the spec: `ProductionDiff.compare(sourceId, newText,
newFingerprint)`.  Equal fingerprints short-circuit with `changed = false`
and no line diff; a missing record is the first successful parse of the
source, which creates the baseline and reports no change; otherwise a line
diff is computed.  The new fingerprint and a truncated text sample are always
persisted ("baselines always advance"). -/
def compareDiff (store : List (String × FingerprintRecord)) (sid : String)
    (newText newFp : List Char) : CompareOutput :=
  let newStore := setRecord store sid ⟨newFp, newText.take 5000⟩
  match lookupRecord store sid with
  | none =>
    ⟨⟨false, true, [], [], 0, false, [], newFp⟩, newStore, false⟩
  | some r =>
    if r.fingerprint = newFp then
      ⟨⟨false, false, [], [], 0, false, r.fingerprint, newFp⟩, newStore, false⟩
    else
      let d := lineDiff r.textSample newText
      let noiseOnly := !(d.1.any (fun l => 20 < l.length) ||
                         d.2.any (fun l => 20 < l.length))
      let changed := !noiseOnly && (!d.1.isEmpty || !d.2.isEmpty)
      let pct : ℚ := min 100 ((|(newText.length : ℚ) - (r.textSample.length : ℚ)|) /
                     (r.textSample.length : ℚ) * 100)
      ⟨⟨changed, true, d.1, d.2, pct, noiseOnly, r.fingerprint, newFp⟩, newStore, true⟩

/-! ### Concrete environments used by witnesses and counterexamples -/

/-- A synthetic site where page `"a"` links only to page `"a"` itself. -/
def selfLoopSite : String → SitePage := fun _ =>
  ⟨true, some 200, "text/html", [], [⟨"a", 30⟩]⟩

/-- A synthetic chain `a → b → c → d.pdf` whose final PDF classifies as
`unknown` (empty extracted text), so the depth budget is exhausted on a
rejected PDF. -/
def searchingChainSite : String → SitePage := fun u =>
  if u = "a" then ⟨true, some 200, "text/html", [], [⟨"b", 30⟩]⟩
  else if u = "b" then ⟨true, some 200, "text/html", [], [⟨"c", 30⟩]⟩
  else if u = "c" then ⟨true, some 200, "text/html", [], [⟨"d.pdf", 30⟩]⟩
  else ⟨true, some 200, "application/pdf", [], []⟩

/-- A plain three-page HTML chain `u0 → u1 → u2 (→ u3)` with no PDF. -/
def chainSiteTest : String → SitePage := fun u =>
  if u = "u0" then ⟨true, some 200, "text/html", [], [⟨"u1", 25⟩]⟩
  else if u = "u1" then ⟨true, some 200, "text/html", [], [⟨"u2", 25⟩]⟩
  else ⟨true, some 200, "text/html", [], [⟨"u3", 25⟩]⟩

/-- URL naming for the chain. -/
def chainUrls : Nat → String := fun i => ["u0", "u1", "u2", "u3"].getD i "u3"

/-- Text with five distinct numbered markers, no high-signal agenda phrase,
and a line containing the no-agenda indicator `'not available'`. -/
def markersNoAgendaText : List Char :=
  "1. Budget review\n2. Budget review\n3. Budget review\n4. Budget review\n5. Budget review\nFiles not available today".data

/-- Text with five distinct numbered markers and nothing else. -/
def markersOnlyText : List Char :=
  "1. Budget review\n2. Budget review\n3. Budget review\n4. Budget review\n5. Budget review".data

/-- Text containing high-signal agenda phrases alongside `'calendar'`. -/
def phraseWithCalendarText : List Char :=
  "Call to Order and Roll Call\nMeeting Calendar overview".data

/-- Two texts that are line permutations of each other with case and internal
whitespace differences. -/
def fpTextA : List Char := "Agenda Item 1\nRoll   Call\nabcd".data

def fpTextB : List Char := "ROLL CALL\nAgenda   Item 1\nabcd".data

/-- Two texts whose line multisets are equal but whose line order differs. -/
def orderTextA : List Char := "Agenda Item 1\nPublic Comment".data

def orderTextB : List Char := "Public Comment\nAgenda Item 1".data

/-! ## Theorems -/

/-- The length of a hex digest is 64 characters. -/
theorem sha256HexChars_length (msg : List Nat) : (sha256HexChars msg).length = 64 := by
  simp [sha256HexChars, word32Hex]

theorem leLex_total : ∀ a b : List Char, leLex a b = true ∨ leLex b a = true := by
  intro a
  induction a with
  | nil => intro b; left; rfl
  | cons x xs ih =>
    intro b
    cases b with
    | nil => right; rfl
    | cons y ys =>
      by_cases h : x.toNat = y.toNat
      · have h' : y.toNat = x.toNat := h.symm
        rcases ih ys with h1 | h1
        · left; simp [leLex, h, h1]
        · right; simp [leLex, h', h1]
      · rcases Nat.lt_or_ge x.toNat y.toNat with hlt | hge
        · left; simp [leLex, h, hlt]
        · have hgt : y.toNat < x.toNat := by omega
          have h' : ¬ y.toNat = x.toNat := by omega
          right; simp [leLex, h', hgt]

theorem leLex_trans : ∀ a b c : List Char,
    leLex a b = true → leLex b c = true → leLex a c = true := by
  intro a
  induction a with
  | nil => intro b c _ _; rfl
  | cons x xs ih =>
    intro b c hab hbc
    cases b with
    | nil => simp [leLex] at hab
    | cons y ys =>
      cases c with
      | nil => simp [leLex] at hbc
      | cons z zs =>
        by_cases hxy : x.toNat = y.toNat <;> by_cases hyz : y.toNat = z.toNat
        · have hxz : x.toNat = z.toNat := hxy.trans hyz
          simp only [leLex, if_pos hxy] at hab
          simp only [leLex, if_pos hyz] at hbc
          simp only [leLex, if_pos hxz]
          exact ih ys zs hab hbc
        · simp only [leLex, if_neg hyz, decide_eq_true_eq] at hbc
          have hxz : ¬ x.toNat = z.toNat := by omega
          have : x.toNat < z.toNat := by omega
          simp [leLex, hxz, this]
        · simp only [leLex, if_neg hxy, decide_eq_true_eq] at hab
          have hxz : ¬ x.toNat = z.toNat := by omega
          have : x.toNat < z.toNat := by omega
          simp [leLex, hxz, this]
        · simp only [leLex, if_neg hxy, decide_eq_true_eq] at hab
          simp only [leLex, if_neg hyz, decide_eq_true_eq] at hbc
          have hxz : ¬ x.toNat = z.toNat := by omega
          have : x.toNat < z.toNat := by omega
          simp [leLex, hxz, this]

theorem char_toNat_inj {a b : Char} (h : a.toNat = b.toNat) : a = b :=
  Char.ext (UInt32.ext h)

theorem leLex_antisymm : ∀ a b : List Char,
    leLex a b = true → leLex b a = true → a = b := by
  intro a
  induction a with
  | nil =>
    intro b _ hba
    cases b with
    | nil => rfl
    | cons y ys => simp [leLex] at hba
  | cons x xs ih =>
    intro b hab hba
    cases b with
    | nil => simp [leLex] at hab
    | cons y ys =>
      by_cases hxy : x.toNat = y.toNat
      · have h' : y.toNat = x.toNat := hxy.symm
        simp only [leLex, if_pos hxy] at hab
        simp only [leLex, if_pos h'] at hba
        have := ih ys hab hba
        rw [char_toNat_inj hxy, this]
      · simp only [leLex, if_neg hxy, decide_eq_true_eq] at hab
        have h' : ¬ y.toNat = x.toNat := by omega
        simp only [leLex, if_neg h', decide_eq_true_eq] at hba
        omega

instance : IsTotal (List Char) lexRel := ⟨leLex_total⟩

instance : IsTrans (List Char) lexRel := ⟨leLex_trans⟩

instance : IsAntisymm (List Char) lexRel := ⟨leLex_antisymm⟩

/-- Sorting with `lexRel` is canonical on permutation classes. -/
theorem insertionSort_lexRel_eq_of_perm {l₁ l₂ : List (List Char)} (h : l₁.Perm l₂) :
    List.insertionSort lexRel l₁ = List.insertionSort lexRel l₂ :=
  List.eq_of_perm_of_sorted
    ((List.perm_insertionSort lexRel l₁).trans (h.trans (List.perm_insertionSort lexRel l₂).symm))
    (List.sorted_insertionSort lexRel l₁) (List.sorted_insertionSort lexRel l₂)

/-- Claim C1 as amended: the normalized `ParsedDoc` fingerprint is invariant
under any transformation that preserves the multiset of cleaned lines — in
particular under line reordering, letter-case changes, and changes of
internal whitespace runs — and it is always 16 hex characters long.  (The
separate counterexample shows the raw `ProductionPipeline._fingerprint`
actually handed to the diff engine has no such invariance.) -/
theorem parsedDoc_fingerprint_insensitive (t t' : List Char)
    (h : (canonLines t).Perm (canonLines t')) :
    parsedDocFingerprint t = parsedDocFingerprint t' ∧
    (parsedDocFingerprint t).length = 16 := by
  constructor
  · have hfilter := h.filter (fun l => decide (3 < l.length))
    have hsort := insertionSort_lexRel_eq_of_perm hfilter
    unfold parsedDocFingerprint normalizeForFingerprint
    rw [hsort]
  · unfold parsedDocFingerprint
    rw [List.length_take, sha256HexChars_length]
    omega

/-- Witness for the amended C1: permuted, re-cased, re-spaced lines give the
same normalized fingerprint. -/
theorem parsedDoc_fingerprint_insensitive_witness :
    (canonLines fpTextA).Perm (canonLines fpTextB) ∧
    parsedDocFingerprint fpTextA = parsedDocFingerprint fpTextB ∧
    (parsedDocFingerprint fpTextA).length = 16 :=
  ⟨by decide, (parsedDoc_fingerprint_insensitive fpTextA fpTextB (by decide)).1,
   (parsedDoc_fingerprint_insensitive fpTextA fpTextB (by decide)).2⟩

/-- Counterexample to Claim C1 as stated: these two texts are line
permutations of each other (and the normalized algorithm the claim describes
does fingerprint them identically), yet the fingerprint the pipeline actually
uses for change detection — `ProductionPipeline._fingerprint`, a raw
`sha256(text)[:16]` — differs between them. -/
theorem pipeline_fingerprint_order_sensitive :
    (splitLines orderTextA).Perm (splitLines orderTextB) ∧
    parsedDocFingerprint orderTextA = parsedDocFingerprint orderTextB ∧
    pipelineFingerprint orderTextA ≠ pipelineFingerprint orderTextB := by
  refine ⟨by decide, by decide, by decide⟩

theorem lookupRecord_setRecord (store : List (String × FingerprintRecord))
    (sid : String) (r : FingerprintRecord) :
    lookupRecord (setRecord store sid r) sid = some r := by
  induction store with
  | nil => simp [setRecord, lookupRecord, List.find?]
  | cons p rest ih =>
    by_cases h : p.1 == sid
    · simp [setRecord, h, lookupRecord, List.find?]
    · have h' : (p.1 == sid) = false := by simpa using h
      simp only [setRecord, h', Bool.false_eq_true, if_false]
      simpa [lookupRecord, List.find?, h'] using ih

/-- All branches of `compareDiff` persist the new fingerprint. -/
theorem compareDiff_store (store : List (String × FingerprintRecord))
    (sid : String) (t fp : List Char) :
    (compareDiff store sid t fp).store = setRecord store sid ⟨fp, t.take 5000⟩ := by
  unfold compareDiff
  cases h : lookupRecord store sid with
  | none => rfl
  | some r =>
    by_cases hfp : r.fingerprint = fp <;> simp [hfp]

/-- Claim C8: `compare` short-circuits on an unchanged fingerprint — when the
stored fingerprint for the source equals the new one, `changed = false` and no
line diff is computed; a first call (no stored record) also reports
`changed = false`; and a second call with identical `(sourceId, text,
fingerprint)` always reports `changed = false` with no line diff, because the
first call persisted the fingerprint. -/
theorem compare_short_circuit (store : List (String × FingerprintRecord))
    (sid : String) (t fp : List Char) :
    (∀ r, lookupRecord store sid = some r → r.fingerprint = fp →
        (compareDiff store sid t fp).summary.changed = false ∧
        (compareDiff store sid t fp).didLineDiff = false) ∧
    (lookupRecord store sid = none →
        (compareDiff store sid t fp).summary.changed = false ∧
        (compareDiff store sid t fp).didLineDiff = false) ∧
    ((compareDiff (compareDiff store sid t fp).store sid t fp).summary.changed = false ∧
     (compareDiff (compareDiff store sid t fp).store sid t fp).didLineDiff = false) := by
  refine ⟨?_, ?_, ?_⟩
  · intro r hr hfp
    unfold compareDiff
    rw [hr]
    simp [hfp]
  · intro hnone
    unfold compareDiff
    rw [hnone]
    exact ⟨rfl, rfl⟩
  · rw [compareDiff_store]
    conv_lhs => unfold compareDiff
    conv_rhs => unfold compareDiff
    rw [lookupRecord_setRecord]
    simp

/-- Witness for C8: a first and an immediate second comparison of the same
`(sourceId, text, fingerprint)` both report no change. -/
theorem compare_short_circuit_witness :
    lookupRecord ([] : List (String × FingerprintRecord)) "metro_board" = none ∧
    (compareDiff [] "metro_board" "Call to order".data "abcdef0123456789".data).summary.changed = false ∧
    (compareDiff (compareDiff [] "metro_board" "Call to order".data "abcdef0123456789".data).store
        "metro_board" "Call to order".data "abcdef0123456789".data).summary.changed = false ∧
    (compareDiff (compareDiff [] "metro_board" "Call to order".data "abcdef0123456789".data).store
        "metro_board" "Call to order".data "abcdef0123456789".data).didLineDiff = false :=
  ⟨rfl,
   ((compare_short_circuit [] "metro_board" "Call to order".data "abcdef0123456789".data).2.1 rfl).1,
   (compare_short_circuit [] "metro_board" "Call to order".data "abcdef0123456789".data).2.2.1,
   (compare_short_circuit [] "metro_board" "Call to order".data "abcdef0123456789".data).2.2.2⟩

theorem discoverGo_status_mem (site : String → SitePage) (maxDepth : Nat) :
    ∀ fuel depth visited current,
      (discoverGo site maxDepth fuel depth visited current).1.status ∈
        "searching" :: specStatuses := by
  intro fuel
  induction fuel with
  | zero =>
    intro d v c
    simp [discoverGo, specStatuses]
  | succ n ih =>
    intro d v c
    unfold discoverGo
    split_ifs with h1 h2 h3 h4 h5 h6 h7
    · simp [specStatuses]
    · simp [specStatuses]
    · simp [specStatuses]
    · simp [specStatuses]
    · exact ih (d + 1) (c :: v) c
    · simp [specStatuses]
    · cases hfu : firstUnvisited (site c).links (c :: v) with
      | some l => exact ih (d + 1) (c :: v) l.url
      | none => simp [specStatuses]
    · simp [specStatuses]

/-- Claim C9 as amended: every returned discovery status lies in the closed
set of the spec's seven terminal statuses extended with the initial
`'searching'` (which leaks out when the final depth rejects a non-agenda,
non-no-agenda-yet PDF). -/
theorem discovery_status_closed (site : String → SitePage) (landing : String)
    (maxDepth : Nat) :
    (discoverAgendaDeep site landing maxDepth).1.status ∈ "searching" :: specStatuses :=
  discoverGo_status_mem site maxDepth (maxDepth + 1) 0 [] landing

/-- Counterexample to Claim C9 as stated: a chain ending in a PDF that
classifies as `unknown` exhausts the depth budget on a rejected PDF and
returns the status `'searching'`, which is not one of the seven claimed
terminal values. -/
theorem discovery_status_searching_leak :
    (discoverAgendaDeep searchingChainSite "a" 3).1.status = "searching" ∧
    "searching" ∉ specStatuses ∧
    (discoverAgendaDeep searchingChainSite "a" 3).1.depthReached = 3 := by
  refine ⟨by decide, by decide, by decide⟩

theorem discoverGo_trace_length (site : String → SitePage) (maxDepth : Nat) :
    ∀ fuel depth visited current,
      (discoverGo site maxDepth fuel depth visited current).2.length ≤ fuel := by
  intro fuel
  induction fuel with
  | zero =>
    intro d v c
    simp [discoverGo]
  | succ n ih =>
    intro d v c
    unfold discoverGo
    split_ifs with h1 h2 h3 h4 h5 h6 h7
    · simp
    · simp
    · simp
    · simp
    · simpa using Nat.succ_le_succ (ih (d + 1) (c :: v) c)
    · simp
    · cases hfu : firstUnvisited (site c).links (c :: v) with
      | some l => simpa using Nat.succ_le_succ (ih (d + 1) (c :: v) l.url)
      | none => simp
    · simp

theorem discoverGo_trace_fresh (site : String → SitePage) (maxDepth : Nat) :
    ∀ fuel depth visited current,
      (discoverGo site maxDepth fuel depth visited current).2.Nodup ∧
      ∀ u ∈ (discoverGo site maxDepth fuel depth visited current).2, u ∉ visited := by
  intro fuel
  induction fuel with
  | zero =>
    intro d v c
    simp [discoverGo]
  | succ n ih =>
    intro d v c
    unfold discoverGo
    split_ifs with h1 h2 h3 h4 h5 h6 h7
    · simp
    · simpa using h1
    · simpa using h1
    · simpa using h1
    · obtain ⟨hnd, hfr⟩ := ih (d + 1) (c :: v) c
      refine ⟨List.nodup_cons.mpr ⟨fun hc => hfr c hc (List.mem_cons_self _ _), hnd⟩, ?_⟩
      intro u hu
      rcases List.mem_cons.mp hu with rfl | hu
      · exact h1
      · exact fun hv => hfr u hu (List.mem_cons_of_mem _ hv)
    · simpa using h1
    · cases hfu : firstUnvisited (site c).links (c :: v) with
      | some l =>
        obtain ⟨hnd, hfr⟩ := ih (d + 1) (c :: v) l.url
        refine ⟨List.nodup_cons.mpr ⟨fun hc => hfr c hc (List.mem_cons_self _ _), hnd⟩, ?_⟩
        intro u hu
        rcases List.mem_cons.mp hu with rfl | hu
        · exact h1
        · exact fun hv => hfr u hu (List.mem_cons_of_mem _ hv)
      | none => simpa using h1
    · simpa using h1

/-- Claim C2 as amended: on a site where page `A` links only to page `A`,
discovery terminates after a single fetch with status `'fail-no-links'` at
depth 0 (not `'fail-loop'` at depth 1: link selection already skips visited
URLs, so the pre-fetch revisit check never fires on this site); and in
general no discovery run ever fetches the same URL twice. -/
theorem discovery_self_loop_terminates (site : String → SitePage) (A : String)
    (maxDepth : Nat)
    (hmd : 0 < maxDepth)
    (hok : (site A).contentOk = true)
    (hsc : (site A).statusCode = some 200)
    (hpdf : isPdfNav A (site A).contentType = false)
    (hhtml : ¬(classify (site A).text = "agenda" ∧ 1000 < (site A).text.length))
    (hne : (site A).links ≠ [])
    (hself : ∀ l ∈ (site A).links, l.url = A) :
    (discoverAgendaDeep site A maxDepth).1.status = "fail-no-links" ∧
    (discoverAgendaDeep site A maxDepth).1.depthReached = 0 ∧
    (discoverAgendaDeep site A maxDepth).2 = [A] ∧
    ∀ s' : String → SitePage, ∀ l' : String, ∀ md' : Nat,
      (discoverAgendaDeep s' l' md').2.Nodup := by
  have hfu : firstUnvisited (site A).links [A] = none := by
    apply List.find?_eq_none.mpr
    intro l hl
    simp [hself l hl]
  obtain ⟨m, rfl⟩ : ∃ m, maxDepth = m + 1 := ⟨maxDepth - 1, by omega⟩
  have hrun : discoverGo site (m + 1) (m + 1 + 1) 0 [] A =
      (⟨0, "fail-no-links", none,
        some ("No unvisited positive-scoring links at depth " ++ toString 0)⟩, [A]) := by
    unfold discoverGo
    rw [if_neg (List.not_mem_nil A)]
    rw [if_neg (by simp [hok, hsc])]
    rw [if_neg (by simp [hpdf])]
    rw [if_neg hhtml]
    rw [if_pos ⟨Nat.succ_pos m, hne⟩]
    simp only [hfu]
  refine ⟨?_, ?_, ?_, ?_⟩
  · simp [discoverAgendaDeep, hrun]
  · simp [discoverAgendaDeep, hrun]
  · simp [discoverAgendaDeep, hrun]
  · intro s' l' md'
    exact (discoverGo_trace_fresh s' md' (md' + 1) 0 [] l').1

/-- Witness for the amended C2 on a concrete one-page self-linking site. -/
theorem discovery_self_loop_terminates_witness :
    (discoverAgendaDeep selfLoopSite "a" 3).1.status = "fail-no-links" ∧
    (discoverAgendaDeep selfLoopSite "a" 3).1.depthReached = 0 ∧
    (discoverAgendaDeep selfLoopSite "a" 3).2 = ["a"] := by
  have h := discovery_self_loop_terminates selfLoopSite "a" 3 (by decide)
    (by decide) (by decide) (by decide) (by decide) (by decide) (by decide)
  exact ⟨h.1, h.2.1, h.2.2.1⟩

/-- Counterexample to Claim C2 as stated: on the self-linking site the run
does terminate after one fetch, but with status `'fail-no-links'` at depth 0,
not `'fail-loop'` at depth 1. -/
theorem discovery_self_loop_not_fail_loop :
    (discoverAgendaDeep selfLoopSite "a" 3).1.status = "fail-no-links" ∧
    (discoverAgendaDeep selfLoopSite "a" 3).1.status ≠ "fail-loop" ∧
    (discoverAgendaDeep selfLoopSite "a" 3).1.depthReached = 0 ∧
    (discoverAgendaDeep selfLoopSite "a" 3).2 = ["a"] := by
  refine ⟨by decide, by decide, by decide, by decide⟩

theorem chainGo (site : String → SitePage) (urls : Nat → String) (maxDepth : Nat)
    (hinj : ∀ i j, i ≤ maxDepth → j ≤ maxDepth → urls i = urls j → i = j)
    (hpage : ∀ i, i ≤ maxDepth →
      (site (urls i)).contentOk = true ∧
      (site (urls i)).statusCode = some 200 ∧
      isPdfNav (urls i) (site (urls i)).contentType = false ∧
      ¬(classify (site (urls i)).text = "agenda" ∧ 1000 < (site (urls i)).text.length) ∧
      (site (urls i)).links.map ScoredLink.url = [urls (i + 1)] ∧
      ∀ l ∈ (site (urls i)).links, -20 < l.score) :
    ∀ k depth visited, depth + k = maxDepth →
      (∀ u ∈ visited, ∃ j, j < depth ∧ u = urls j) →
      (discoverGo site maxDepth (k + 1) depth visited (urls depth)).1.status = "fail-max-depth" ∧
      (discoverGo site maxDepth (k + 1) depth visited (urls depth)).2.length = k + 1 := by
  intro k
  induction k with
  | zero =>
    intro d v hd hv
    have hdm : d = maxDepth := by omega
    obtain ⟨hok, hsc, hpdf, hhtml, hmap, hscore⟩ := hpage d (by omega)
    have hnv : urls d ∉ v := by
      intro hin
      obtain ⟨j, hj, huj⟩ := hv _ hin
      have := hinj d j (by omega) (by omega) huj
      omega
    unfold discoverGo
    rw [if_neg hnv]
    rw [if_neg (by simp [hok, hsc])]
    rw [if_neg (by simp [hpdf])]
    rw [if_neg hhtml]
    rw [if_neg (by rintro ⟨hlt, -⟩; omega)]
    exact ⟨rfl, rfl⟩
  | succ n ihn =>
    intro d v hd hv
    have hdlt : d < maxDepth := by omega
    obtain ⟨hok, hsc, hpdf, hhtml, hmap, hscore⟩ := hpage d (by omega)
    have hnv : urls d ∉ v := by
      intro hin
      obtain ⟨j, hj, huj⟩ := hv _ hin
      have := hinj d j (by omega) (by omega) huj
      omega
    obtain ⟨l, hls, hurl⟩ : ∃ l, (site (urls d)).links = [l] ∧ l.url = urls (d + 1) := by
      cases hcase : (site (urls d)).links with
      | nil => rw [hcase] at hmap; simp at hmap
      | cons a rest =>
        rw [hcase] at hmap
        cases rest with
        | nil =>
          refine ⟨a, rfl, ?_⟩
          simpa using hmap
        | cons b r2 => simp at hmap
    have hnotin : l.url ∉ urls d :: v := by
      rw [hurl]
      intro hin
      rcases List.mem_cons.mp hin with heq | hin2
      · have := hinj (d + 1) d (by omega) (by omega) heq
        omega
      · obtain ⟨j, hj, huj⟩ := hv _ hin2
        have := hinj (d + 1) j (by omega) (by omega) huj
        omega
    have hcont : ((urls d :: v).contains l.url) = false := by
      simpa using hnotin
    have hne1 : l.url ≠ urls d := fun h => hnotin (h ▸ List.mem_cons_self _ _)
    have hne2 : l.url ∉ v := fun h => hnotin (List.mem_cons_of_mem _ h)
    have hsc2 : -20 < l.score := hscore l (by rw [hls]; exact List.mem_singleton_self l)
    have hfu : firstUnvisited (site (urls d)).links (urls d :: v) = some l := by
      rw [hls]
      simp [firstUnvisited, List.find?, hne1, hne2, hsc2]
    have hrec := ihn (d + 1) (urls d :: v) (by omega) (by
      intro u hu
      rcases List.mem_cons.mp hu with rfl | hu2
      · exact ⟨d, by omega, rfl⟩
      · obtain ⟨j, hj, huj⟩ := hv _ hu2
        exact ⟨j, by omega, huj⟩)
    unfold discoverGo
    rw [if_neg hnv]
    rw [if_neg (by simp [hok, hsc])]
    rw [if_neg (by simp [hpdf])]
    rw [if_neg hhtml]
    rw [if_pos ⟨hdlt, by rw [hls]; simp⟩]
    simp only [hfu, hurl]
    exact ⟨hrec.1, by simpa using hrec.2⟩

/-- Claim C3: any discovery run fetches at most `maxDepth + 1` URLs, and on a
chain of more than `maxDepth` plain HTML pages with no PDF the run ends in
`'fail-max-depth'` after exactly `maxDepth + 1` fetches. -/
theorem discovery_depth_budget (site : String → SitePage) (landing : String)
    (maxDepth : Nat) (urls : Nat → String)
    (hinj : (((List.range (maxDepth + 1)).map urls)).Nodup)
    (hland : landing = urls 0)
    (hpages : ∀ i ∈ List.range (maxDepth + 1),
      (site (urls i)).contentOk = true ∧
      (site (urls i)).statusCode = some 200 ∧
      isPdfNav (urls i) (site (urls i)).contentType = false ∧
      ¬(classify (site (urls i)).text = "agenda" ∧ 1000 < (site (urls i)).text.length) ∧
      (site (urls i)).links.map ScoredLink.url = [urls (i + 1)] ∧
      ∀ l ∈ (site (urls i)).links, -20 < l.score) :
    (∀ s' : String → SitePage, ∀ l' : String, ∀ md' : Nat,
      (discoverAgendaDeep s' l' md').2.length ≤ md' + 1) ∧
    (discoverAgendaDeep site landing maxDepth).1.status = "fail-max-depth" ∧
    (discoverAgendaDeep site landing maxDepth).2.length = maxDepth + 1 := by
  have hp : (List.range (maxDepth + 1)).Pairwise (fun a b => urls a ≠ urls b) :=
    List.pairwise_map.mp hinj
  have hsymm : Symmetric (fun a b : Nat => urls a ≠ urls b) := by
    intro a b h heq
    exact h heq.symm
  have hinj' : ∀ i j, i ≤ maxDepth → j ≤ maxDepth → urls i = urls j → i = j := by
    intro i j hi hj hu
    by_contra hne
    exact hp.forall hsymm (by simp [List.mem_range]; omega)
      (by simp [List.mem_range]; omega) hne hu
  have hpage' : ∀ i, i ≤ maxDepth →
      (site (urls i)).contentOk = true ∧
      (site (urls i)).statusCode = some 200 ∧
      isPdfNav (urls i) (site (urls i)).contentType = false ∧
      ¬(classify (site (urls i)).text = "agenda" ∧ 1000 < (site (urls i)).text.length) ∧
      (site (urls i)).links.map ScoredLink.url = [urls (i + 1)] ∧
      ∀ l ∈ (site (urls i)).links, -20 < l.score := by
    intro i hi
    exact hpages i (by simp [List.mem_range]; omega)
  have hchain := chainGo site urls maxDepth hinj' hpage' maxDepth 0 [] (by omega) (by simp)
  subst hland
  exact ⟨fun s' l' md' => discoverGo_trace_length s' md' (md' + 1) 0 [] l',
    hchain.1, hchain.2⟩

/-- Witness for C3 on a concrete three-page chain with `maxDepth = 2`. -/
theorem discovery_depth_budget_witness :
    ((List.range 3).map chainUrls).Nodup ∧
    (discoverAgendaDeep chainSiteTest "u0" 2).1.status = "fail-max-depth" ∧
    (discoverAgendaDeep chainSiteTest "u0" 2).2.length = 3 := by
  have h := discovery_depth_budget chainSiteTest "u0" 2 chainUrls (by decide)
    (by decide) (by decide)
  exact ⟨by decide, h.2.1, h.2.2⟩

theorem fetchGoProd_attempts_le (att : Nat → AttemptOutcome) (jit : Nat → ℚ) :
    ∀ fuel i m, (fetchGoProd att jit i fuel m).attemptsMade ≤ fuel := by
  intro fuel
  induction fuel with
  | zero =>
    intro i m
    simp [fetchGoProd]
  | succ n ih =>
    intro i m
    cases hatt : att i with
    | success c code ctype =>
      cases c with
      | some s => simp [fetchGoProd, hatt]
      | none =>
        simp only [fetchGoProd, hatt]
        exact Nat.succ_le_succ (ih (i + 1) _)
    | httpError code =>
      simp only [fetchGoProd, hatt]
      split_ifs with h1 h2 h3
      · simp
      · simp
      · simpa using Nat.succ_le_succ (ih (i + 1) _)
      · simp
    | netExc msg =>
      simp only [fetchGoProd, hatt]
      exact Nat.succ_le_succ (ih (i + 1) _)

theorem fetchGoProd_permanent (att : Nat → AttemptOutcome) (jit : Nat → ℚ)
    (i fuel : Nat) (m : FetchMeta) (c : Int)
    (hc : att i = .httpError c) (hp : permanentCode c) :
    (fetchGoProd att jit i (fuel + 1) m).content = none ∧
    (fetchGoProd att jit i (fuel + 1) m).meta.statusCode = some c ∧
    (fetchGoProd att jit i (fuel + 1) m).meta.errorMsg ≠ none ∧
    (fetchGoProd att jit i (fuel + 1) m).attemptsMade = 1 ∧
    (fetchGoProd att jit i (fuel + 1) m).sleeps = [] := by
  have h429 : c ≠ 429 := by
    rcases hp with h | h | ⟨h1, h2, h3⟩ <;> omega
  have hlt : c < 500 := by
    rcases hp with h | h | ⟨h1, h2, h3⟩ <;> omega
  simp only [fetchGoProd, hc]
  by_cases h1 : c = 404 ∨ c = 410
  · simp [h1]
  · simp only [if_neg h1]
    by_cases h2 : c = 403
    · simp [h2]
    · have h3 : ¬(c = 429 ∨ 500 ≤ c) := by omega
      simp [if_neg h2, if_neg h3]

theorem fetchGoProd_transient (att : Nat → AttemptOutcome) (jit : Nat → ℚ)
    (i fuel : Nat) (m : FetchMeta) (ht : transientAt att i) :
    ∃ m2, fetchGoProd att jit i (fuel + 1) m =
      ⟨(fetchGoProd att jit (i + 1) fuel m2).content,
       (fetchGoProd att jit (i + 1) fuel m2).meta,
       exponentialBackoff i (jit i) :: (fetchGoProd att jit (i + 1) fuel m2).sleeps,
       (fetchGoProd att jit (i + 1) fuel m2).attemptsMade + 1⟩ := by
  rcases ht with ⟨c, hc, hcls⟩ | ⟨msg, hmsg⟩
  · refine ⟨{ m with retries := i, statusCode := some c }, ?_⟩
    have h1 : ¬(c = 404 ∨ c = 410) := by omega
    have h2 : c ≠ 403 := by omega
    simp only [fetchGoProd, hc, if_neg h1, if_neg h2, if_pos hcls]
  · exact ⟨{ m with retries := i, errorMsg := some msg }, by simp only [fetchGoProd, hmsg]⟩

/-- Claim C6: `fetch` makes at most 3 request attempts; a 404, 410, or any
other non-429 4xx causes an immediate failure return with the status code
recorded, an error set, and no further attempt or sleep; HTTP 429, 5xx and
network exceptions each trigger one backoff sleep equal to
`min(2^attempt, 60) + jitter` with `jitter ∈ [0, 1)`. -/
theorem fetch_retry_policy (att : Nat → AttemptOutcome) (jit : Nat → ℚ)
    (hj : ∀ n, 0 ≤ jit n ∧ jit n < 1) :
    (∀ cache, (prodFetch cache att jit).attemptsMade ≤ 3) ∧
    (∀ i c, i < 3 → (∀ j, j < i → transientAt att j) →
      att i = .httpError c → permanentCode c →
        (prodFetch none att jit).content = none ∧
        (prodFetch none att jit).meta.statusCode = some c ∧
        (prodFetch none att jit).meta.errorMsg ≠ none ∧
        (prodFetch none att jit).attemptsMade = i + 1 ∧
        (prodFetch none att jit).sleeps.length = i) ∧
    (∀ i, i < 3 → (∀ j, j < i → transientAt att j) → transientAt att i →
        ∃ s, (prodFetch none att jit).sleeps.get? i = some s ∧
          min ((2 : ℚ) ^ i) 60 ≤ s ∧ s < min ((2 : ℚ) ^ i) 60 + 1 ∧
          s = exponentialBackoff i (jit i)) := by
  have hrw : prodFetch none att jit = fetchGoProd att jit 0 3 {} := rfl
  refine ⟨?_, ?_, ?_⟩
  · intro cache
    cases cache with
    | some c => simp [prodFetch]
    | none => exact fetchGoProd_attempts_le att jit 3 0 {}
  · intro i c hi hprev hc hp
    rw [hrw]
    match i, hi with
    | 0, _ =>
      have h := fetchGoProd_permanent att jit 0 2 {} c hc hp
      exact ⟨h.1, h.2.1, h.2.2.1, h.2.2.2.1, by rw [h.2.2.2.2]; rfl⟩
    | 1, _ =>
      obtain ⟨m2, he0⟩ := fetchGoProd_transient att jit 0 2 {} (hprev 0 (by omega))
      rw [he0]
      have h := fetchGoProd_permanent att jit 1 1 m2 c hc hp
      refine ⟨h.1, h.2.1, h.2.2.1, by rw [h.2.2.2.1], ?_⟩
      simp [h.2.2.2.2]
    | 2, _ =>
      obtain ⟨m2, he0⟩ := fetchGoProd_transient att jit 0 2 {} (hprev 0 (by omega))
      rw [he0]
      obtain ⟨m3, he1⟩ := fetchGoProd_transient att jit 1 1 m2 (hprev 1 (by omega))
      rw [he1]
      have h := fetchGoProd_permanent att jit 2 0 m3 c hc hp
      refine ⟨h.1, h.2.1, h.2.2.1, by rw [h.2.2.2.1], ?_⟩
      simp [h.2.2.2.2]
  · intro i hi hprev ht
    rw [hrw]
    have hbounds : min ((2 : ℚ) ^ i) 60 ≤ exponentialBackoff i (jit i) ∧
        exponentialBackoff i (jit i) < min ((2 : ℚ) ^ i) 60 + 1 := by
      unfold exponentialBackoff
      constructor
      · linarith [(hj i).1]
      · linarith [(hj i).2]
    match i, hi with
    | 0, _ =>
      obtain ⟨m2, he0⟩ := fetchGoProd_transient att jit 0 2 {} ht
      rw [he0]
      exact ⟨_, rfl, hbounds.1, hbounds.2, rfl⟩
    | 1, _ =>
      obtain ⟨m2, he0⟩ := fetchGoProd_transient att jit 0 2 {} (hprev 0 (by omega))
      rw [he0]
      obtain ⟨m3, he1⟩ := fetchGoProd_transient att jit 1 1 m2 ht
      rw [he1]
      exact ⟨_, rfl, hbounds.1, hbounds.2, rfl⟩
    | 2, _ =>
      obtain ⟨m2, he0⟩ := fetchGoProd_transient att jit 0 2 {} (hprev 0 (by omega))
      rw [he0]
      obtain ⟨m3, he1⟩ := fetchGoProd_transient att jit 1 1 m2 (hprev 1 (by omega))
      rw [he1]
      obtain ⟨m4, he2⟩ := fetchGoProd_transient att jit 2 0 m3 ht
      rw [he2]
      exact ⟨_, rfl, hbounds.1, hbounds.2, rfl⟩

/-- Witness for C6: an immediate 404 fails on the first attempt with the
status recorded and no sleep; jitter 0 is in `[0, 1)`. -/
theorem fetch_retry_policy_witness :
    (prodFetch none (fun _ => .httpError 404) (fun _ => 0)).attemptsMade ≤ 3 ∧
    (prodFetch none (fun _ => .httpError 404) (fun _ => 0)).content = none ∧
    (prodFetch none (fun _ => .httpError 404) (fun _ => 0)).meta.statusCode = some 404 ∧
    (prodFetch none (fun _ => .httpError 404) (fun _ => 0)).meta.errorMsg ≠ none ∧
    (prodFetch none (fun _ => .httpError 404) (fun _ => 0)).attemptsMade = 1 := by
  have h := fetch_retry_policy (fun _ => .httpError 404) (fun _ => 0)
    (fun n => ⟨le_refl 0, by norm_num⟩)
  have h2 := h.2.1 0 404 (by omega) (fun j hj => absurd hj (by omega)) rfl (Or.inl rfl)
  exact ⟨h.1 none, h2.1, h2.2.1, h2.2.2.1, h2.2.2.2.1⟩

theorem fetchGoProd_none_error (att : Nat → AttemptOutcome) (jit : Nat → ℚ) :
    ∀ fuel i m, (fetchGoProd att jit i fuel m).content = none →
      (fetchGoProd att jit i fuel m).meta.errorMsg ≠ none := by
  intro fuel
  induction fuel with
  | zero =>
    intro i m _
    cases hm : m.errorMsg with
    | none => simp [fetchGoProd, hm]
    | some e => simp [fetchGoProd, hm]
  | succ n ih =>
    intro i m hnone
    cases hatt : att i with
    | success c code ctype =>
      cases c with
      | some s => simp [fetchGoProd, hatt] at hnone
      | none =>
        simp only [fetchGoProd, hatt] at hnone ⊢
        exact ih (i + 1) _ hnone
    | httpError code =>
      simp only [fetchGoProd, hatt] at hnone ⊢
      split_ifs with h1 h2 h3
      · simp
      · simp
      · rw [if_neg h1, if_neg h2, if_pos h3] at hnone
        exact ih (i + 1) _ hnone
      · simp
    | netExc msg =>
      simp only [fetchGoProd, hatt] at hnone ⊢
      exact ih (i + 1) _ hnone

/-- Claim C7 as amended: the `src/fetcher.py` `fetch` never surfaces HTTP or
network failures as exceptions — it is a total function whose every
`None`-content result carries a populated `error` field.  (The separate
counterexample shows the `src/deep_discovery.py` copy of `fetch` violates the
error-population part on 429/5xx retry exhaustion.) -/
theorem prodFetch_failure_error_populated (cache : Option String)
    (att : Nat → AttemptOutcome) (jit : Nat → ℚ)
    (h : (prodFetch cache att jit).content = none) :
    (prodFetch cache att jit).meta.errorMsg ≠ none := by
  cases cache with
  | some c => simp [prodFetch] at h
  | none => exact fetchGoProd_none_error att jit 3 0 {} h

/-- Witness for the amended C7: exhausting three 503 retries in the
`src/fetcher.py` loop yields `None` content with the error populated. -/
theorem prodFetch_failure_error_populated_witness :
    (prodFetch none (fun _ => .httpError 503) (fun _ => 0)).content = none ∧
    (prodFetch none (fun _ => .httpError 503) (fun _ => 0)).meta.errorMsg ≠ none :=
  ⟨by decide, prodFetch_failure_error_populated none _ _ (by decide)⟩

/-- Counterexample to Claim C7 as stated: the `src/deep_discovery.py` copy of
`ProductionFetcher.fetch`, after exhausting retries on three HTTP 503
responses, returns `None` content with the `error` field still unset (only
the status code is recorded). -/
theorem deepFetch_exhaustion_error_unset :
    (deepFetch none (fun _ => .httpError 503) (fun _ => 0)).content = none ∧
    (deepFetch none (fun _ => .httpError 503) (fun _ => 0)).meta.errorMsg = none ∧
    (deepFetch none (fun _ => .httpError 503) (fun _ => 0)).meta.statusCode = some 503 := by
  refine ⟨by decide, by decide, by decide⟩

/-- Claim C10: `ParsedDoc.__post_init__` computes a fingerprint only when the
text is non-empty and no fingerprint was supplied; a `ParsedDoc` constructed
with empty text and the default empty fingerprint keeps fingerprint `""`, and
a supplied non-empty fingerprint is kept verbatim. -/
theorem postInit_fingerprint_cases (t fp : List Char) :
    (fp = [] → t = [] → postInitFingerprint t fp = []) ∧
    (fp ≠ [] → postInitFingerprint t fp = fp) ∧
    (fp = [] → t ≠ [] → postInitFingerprint t fp = parsedDocFingerprint t) := by
  refine ⟨?_, ?_, ?_⟩
  · intro hfp ht
    subst hfp; subst ht; rfl
  · intro hfp
    have h : fp.isEmpty = false := by
      cases fp with
      | nil => exact absurd rfl hfp
      | cons a l => rfl
    simp [postInitFingerprint, h]
  · intro hfp ht
    subst hfp
    have h : t.isEmpty = false := by
      cases t with
      | nil => exact absurd rfl ht
      | cons a l => rfl
    simp [postInitFingerprint, h]

/-- Witness for C10 at concrete inputs. -/
theorem postInit_fingerprint_cases_witness :
    postInitFingerprint [] [] = [] ∧
    postInitFingerprint [] "xyz".data = "xyz".data ∧
    postInitFingerprint "abcd".data [] = parsedDocFingerprint "abcd".data :=
  ⟨(postInit_fingerprint_cases [] []).1 rfl rfl,
   (postInit_fingerprint_cases [] "xyz".data).2.1 (by decide),
   (postInit_fingerprint_cases "abcd".data []).2.2 rfl (by decide)⟩

/-- Claim C4: any high-signal agenda phrase inside the first 5000 characters
of the lowercased, navigation-stripped text makes `classify` return
`'agenda'`, regardless of every other signal in the text. -/
theorem classify_agenda_phrase_unconditional (text : List Char)
    (h : agendaPhrases.any
        (fun p => containsSub p ((lowerStr (stripNavText text)).take 5000)) = true) :
    classify text = "agenda" := by
  simp [classify, h]

/-- Witness for C4: a text containing `'call to order'`, `'roll call'` and
`'calendar'` classifies as `'agenda'`. -/
theorem classify_agenda_phrase_unconditional_witness :
    agendaPhrases.any
      (fun p => containsSub p ((lowerStr (stripNavText phraseWithCalendarText)).take 5000)) = true ∧
    containsSub "calendar".data (lowerStr phraseWithCalendarText) = true ∧
    classify phraseWithCalendarText = "agenda" :=
  ⟨by decide, by decide, classify_agenda_phrase_unconditional _ (by decide)⟩

/-- Counterexample to Claim C5 as stated: this text has five distinct
numbered line-start markers and no high-signal agenda phrase, yet `classify`
returns `'no-agenda-yet'` (the no-agenda indicator `'not available'` is
checked before the marker count). -/
theorem classify_markers_overridden_by_no_agenda :
    5 ≤ countItemMarkers (stripNavText markersNoAgendaText) ∧
    agendaPhrases.any
      (fun p => containsSub p ((lowerStr (stripNavText markersNoAgendaText)).take 5000)) = false ∧
    classify markersNoAgendaText = "no-agenda-yet" ∧
    classify markersNoAgendaText ≠ "agenda" := by
  refine ⟨by decide, by decide, by decide, by decide⟩

/-- Claim C5 as amended: five or more distinct markers classify as `'agenda'`
without a high-signal phrase, provided no no-agenda-yet phrasing occurs in
the scanned prefix. -/
theorem classify_five_markers_agenda (text : List Char)
    (h5 : 5 ≤ countItemMarkers (stripNavText text))
    (hp : agendaPhrases.any
        (fun p => containsSub p ((lowerStr (stripNavText text)).take 5000)) = false)
    (hn : noAgendaIndicators.any
        (fun p => containsSub p ((lowerStr (stripNavText text)).take 5000)) = false) :
    classify text = "agenda" := by
  simp [classify, hp, hn, h5]

/-- Witness for the amended C5 at a concrete text. -/
theorem classify_five_markers_agenda_witness :
    5 ≤ countItemMarkers (stripNavText markersOnlyText) ∧
    classify markersOnlyText = "agenda" :=
  ⟨by decide, classify_five_markers_agenda _ (by decide) (by decide) (by decide)⟩

end LAAgenda
